import Mathlib

/-!
Shallow embedding of `hw2/main.py`: a Monte Carlo simulation of monthly
restaurant profit.  Numeric values are modelled as rationals.  The shared
process-wide random generator is modelled by an abstract `Entropy` (the
content of the seeded stream: for each distribution family, the value the
generator would produce at a given stream position) together with a
`GState` carrying the current stream position and a log of the draws made
so far, so that the order of draws is observable.
-/

/-- One recorded draw against the shared RNG stream: which distribution was
sampled, with which parameters, at which stream position. -/
inductive Draw where
  | normal (mean std : ℚ) (pos : ℕ)
  | uniform (lo hi : ℚ) (pos : ℕ)
  | choice (prices probs : List ℚ) (pos : ℕ)
deriving DecidableEq

/-- State of the process-wide generator: current position in the abstract
stream, plus the log of draws made so far. -/
structure GState where
  pos : ℕ
  log : List Draw
deriving DecidableEq

/-- Abstract content of the seeded random stream: for each distribution
family and parameters, the value produced at a given stream position. -/
structure Entropy where
  normalDraw : ℚ → ℚ → ℕ → ℚ
  uniformDraw : ℚ → ℚ → ℕ → ℚ
  choiceDraw : List ℚ → List ℚ → ℕ → ℚ

/-- Round to the nearest integer, ties to even: the semantics of
`.round(0)` in the numeric library used by the source. -/
def roundHalfEven (q : ℚ) : ℤ :=
  if q - ⌊q⌋ < 1/2 then ⌊q⌋
  else if 1/2 < q - ⌊q⌋ then ⌊q⌋ + 1
  else if ⌊q⌋ % 2 = 0 then ⌊q⌋ else ⌊q⌋ + 1

/-- `class Meals`: meals sold per month, normal with `mean` and `std`. -/
structure Meals where
  mean : ℚ
  std : ℚ
deriving DecidableEq

/-- `Meals.__init__`: stores `mean` and `std` as given, no validation. -/
def Meals.init (mean std : ℚ) : Meals := ⟨mean, std⟩

/-- `Meals.roll_meals_sold`: `rng.normal(self.mean, self.std, size).round(0)` —
one normal draw per month, each rounded to the nearest integer. -/
def Meals.roll_meals_sold (m : Meals) (e : Entropy) (size : ℕ) (g : GState) :
    List ℚ × GState :=
  ((List.range size).map fun i =>
      ((roundHalfEven (e.normalDraw m.mean m.std (g.pos + i)) : ℤ) : ℚ),
   ⟨g.pos + size,
    g.log ++ (List.range size).map fun i => Draw.normal m.mean m.std (g.pos + i)⟩)

/-- `class Labor`: labor cost per month, uniform between `min` and `max`. -/
structure Labor where
  min : ℚ
  max : ℚ
deriving DecidableEq

/-- `Labor.__init__`: stores `min` and `max` as given, no validation. -/
def Labor.init (min max : ℚ) : Labor := ⟨min, max⟩

/-- `Labor.roll_cost`: `rng.uniform(self.min, self.max, size)` — one uniform
draw per month. -/
def Labor.roll_cost (l : Labor) (e : Entropy) (size : ℕ) (g : GState) :
    List ℚ × GState :=
  ((List.range size).map fun i => e.uniformDraw l.min l.max (g.pos + i),
   ⟨g.pos + size,
    g.log ++ (List.range size).map fun i => Draw.uniform l.min l.max (g.pos + i)⟩)

/-- `class Market`: market price per month, discrete over `meal_price` with
weights `market_probability`. -/
structure Market where
  meal_price : List ℚ
  market_probability : List ℚ
deriving DecidableEq

/-- `Market.__init__`: rejects a length mismatch, then rejects any
probability outside `[0, 1]`; otherwise stores both lists as given.  The
probabilities are never required to sum to 1. -/
def Market.init (meal_prices market_probability : List ℚ) : Except String Market :=
  if meal_prices.length ≠ market_probability.length then
    Except.error "meal_prices and market_probability must have the same length."
  else if ∃ prob ∈ market_probability, prob < 0 ∨ prob > 1 then
    Except.error "market_probability must be between 0 and 1."
  else
    Except.ok ⟨meal_prices, market_probability⟩

/-- `Market.roll_market`: `rng.choice(self.meal_price, size, p=self.market_probability)`
— one weighted choice among the prices per month. -/
def Market.roll_market (mk : Market) (e : Entropy) (size : ℕ) (g : GState) :
    List ℚ × GState :=
  ((List.range size).map fun i =>
      e.choiceDraw mk.meal_price mk.market_probability (g.pos + i),
   ⟨g.pos + size,
    g.log ++ (List.range size).map fun i =>
      Draw.choice mk.meal_price mk.market_probability (g.pos + i)⟩)

/-- `class Partnership`: floor `min`, cap threshold `threshold`, cap share
`share`. A plain record, no behavior of its own. -/
structure Partnership where
  min : ℚ
  threshold : ℚ
  share : ℚ
deriving DecidableEq

/-- `Partnership.__init__`: stores all three fields as given, no validation. -/
def Partnership.init (min threshold share : ℚ) : Partnership :=
  ⟨min, threshold, share⟩

/-- The partnership adjustment applied inline in `Restaurant.simulate`
(lines 288–292): floor below `min`, blended share above `threshold`,
pass-through otherwise; both comparisons strict. -/
def Partnership.apply (p : Partnership) (rev : ℚ) : ℚ :=
  if rev < p.min then p.min
  else if rev > p.threshold then p.share * p.threshold + (1 - p.share) * rev
  else rev

/-- `class Restaurant`: aggregates the three samplers, the per-meal cost,
the fixed non-labor monthly cost, and the partnership deal. -/
structure Restaurant where
  labor : Labor
  market : Market
  meals : Meals
  cost_per_meal : ℚ
  non_labor_cost_per_month : ℚ
  partnership : Partnership

/-- `Restaurant.simulate`: draws one batch of `months` samples per model
(meals first, then labor, then market), then for each month computes
`meals_sold[i] * (market_prices[i] - cost_per_meal) - non_labor_cost_per_month
- labor_costs[i]`, applying the partnership adjustment when the flag is set. -/
def Restaurant.simulate (r : Restaurant) (e : Entropy) (months : ℕ)
    (partnership : Bool) (g : GState) : List ℚ × GState :=
  let ms := r.meals.roll_meals_sold e months g
  let lc := r.labor.roll_cost e months ms.2
  let mp := r.market.roll_market e months lc.2
  ((List.range months).map fun i =>
    let rev := ms.1.getD i 0 * (mp.1.getD i 0 - r.cost_per_meal)
      - r.non_labor_cost_per_month - lc.1.getD i 0
    if partnership then r.partnership.apply rev else rev,
   mp.2)

/-- Indexing into a table of a function over `List.range`. -/
theorem getD_map_range {α : Type} (f : ℕ → α) (d : α) {n i : ℕ} (h : i < n) :
    ((List.range n).map f).getD i d = f i := by
  rw [List.getD_eq_getElem?_getD, List.getElem?_map, List.getElem?_range h]
  rfl

/-- C1 (amended with `min ≤ threshold`): the partnership adjustment returns
the floor below it, the blended value above the cap threshold, the raw
profit otherwise, and both comparisons being strict, the two boundary
points pass through unchanged. -/
theorem C1_partnership_apply_branches (p : Partnership) (x : ℚ)
    (h : p.min ≤ p.threshold) :
    (x < p.min → p.apply x = p.min) ∧
    (x > p.threshold → p.apply x = p.share * p.threshold + (1 - p.share) * x) ∧
    (¬ x < p.min → ¬ x > p.threshold → p.apply x = x) ∧
    p.apply p.min = p.min ∧ p.apply p.threshold = p.threshold := by
  unfold Partnership.apply
  refine ⟨?_, ?_, ?_, ?_, ?_⟩ <;> intros <;> split_ifs <;> first | rfl | linarith

/-- C1 counterexample: for the policy with floor 10, threshold 5, share 1,
the raw profit 10 equals the floor, yet it is not passed through: the cap
branch fires and returns 5. -/
theorem C1_cex : Partnership.apply ⟨10, 5, 1⟩ 10 = 5 ∧ (5 : ℚ) ≠ 10 := by
  norm_num [Partnership.apply]

/-- C1 witness: floor branch at a concrete input. -/
theorem C1_w : Partnership.apply ⟨3, 7, 1/2⟩ 2 = 3 :=
  (C1_partnership_apply_branches ⟨3, 7, 1/2⟩ 2 (by norm_num)).1 (by norm_num)

/-- C7 (amended with `min ≤ threshold`): above the cap threshold the
adjustment returns the blended value, and with a positive share the
blended value is strictly below the raw profit. -/
theorem C7_cap_blend (p : Partnership) (x : ℚ)
    (h : p.min ≤ p.threshold) (hx : x > p.threshold) :
    p.apply x = p.share * p.threshold + (1 - p.share) * x ∧
    (0 < p.share → p.apply x < x) := by
  have h1 : ¬ x < p.min := by linarith
  unfold Partnership.apply
  rw [if_neg h1, if_pos hx]
  refine ⟨rfl, fun hs => ?_⟩
  nlinarith [mul_pos hs (sub_pos.mpr hx)]

/-- C7 counterexample: for the policy with floor 100, threshold 5, share 1
(so the share is positive), the input 50 lies above the threshold, yet the
result is the floor 100, which differs from the blended value 5 and is not
strictly below 50. -/
theorem C7_cex :
    (50 : ℚ) > 5 ∧ Partnership.apply ⟨100, 5, 1⟩ 50 = 100 ∧
    Partnership.apply ⟨100, 5, 1⟩ 50 ≠ 1 * 5 + (1 - 1) * 50 ∧
    ¬ Partnership.apply ⟨100, 5, 1⟩ 50 < 50 := by
  norm_num [Partnership.apply]

/-- C7 witness: cap branch at a concrete input with a positive share. -/
theorem C7_w :
    Partnership.apply ⟨0, 10, 1/2⟩ 20 = 1/2 * 10 + (1 - 1/2) * 20 ∧
    ((0 : ℚ) < 1/2 → Partnership.apply ⟨0, 10, 1/2⟩ 20 < 20) :=
  C7_cap_blend ⟨0, 10, 1/2⟩ 20 (by norm_num) (by norm_num)

/-- C8 (amended with `min ≤ threshold`): the adjustment passes both
boundary points through unchanged, for every policy with share in `[0,1]`
and floor at most the cap threshold. -/
theorem C8_boundary_fixed_points (p : Partnership)
    (_h0 : 0 ≤ p.share) (_h1 : p.share ≤ 1) (h : p.min ≤ p.threshold) :
    p.apply p.min = p.min ∧ p.apply p.threshold = p.threshold := by
  unfold Partnership.apply
  constructor <;> split_ifs <;> first | rfl | linarith

/-- C8 counterexample: the policy with floor 8, threshold 4, share 1/2 has
its share in `[0,1]`, yet the floor is not a fixed point: the cap branch
fires at 8 and returns 6. -/
theorem C8_cex :
    (0 : ℚ) ≤ 1/2 ∧ (1/2 : ℚ) ≤ 1 ∧
    Partnership.apply ⟨8, 4, 1/2⟩ 8 = 6 ∧ (6 : ℚ) ≠ 8 := by
  norm_num [Partnership.apply]

/-- C8 witness: both boundary points of the source's own configuration. -/
theorem C8_w :
    Partnership.apply ⟨3500, 9000, 9/10⟩ 3500 = 3500 ∧
    Partnership.apply ⟨3500, 9000, 9/10⟩ 9000 = 9000 :=
  C8_boundary_fixed_points ⟨3500, 9000, 9/10⟩ (by norm_num) (by norm_num)
    (by norm_num)

/-- C5: simulating zero months returns the empty profit sequence, for every
configuration, either flag value, and any generator state. -/
theorem C5_zero_months (r : Restaurant) (e : Entropy) (partnership : Bool)
    (g : GState) : (r.simulate e 0 partnership g).1 = [] := rfl

/-- C10: the Partnership, Meals and Labor initializers are total and store
every field exactly as given — no input is validated, so a share outside
`[0,1]`, a negative std, or min above max are accepted silently. -/
theorem C10_no_validation (mn th sh mean std lo hi : ℚ) :
    Partnership.init mn th sh = ⟨mn, th, sh⟩ ∧
    Meals.init mean std = ⟨mean, std⟩ ∧
    Labor.init lo hi = ⟨lo, hi⟩ :=
  ⟨rfl, rfl, rfl⟩

/-- C2: with the partnership flag off, the i-th simulated profit is exactly
`meals[i] * (market[i] - cost_per_meal) - non_labor_cost_per_month - labor[i]`,
where the three vectors are the pre-drawn batches in the states simulate
draws them in; no clamping or adjustment is applied. -/
theorem C2_raw_profit_formula (r : Restaurant) (e : Entropy) (months : ℕ)
    (g : GState) (i : ℕ) (hi : i < months) :
    (r.simulate e months false g).1.getD i 0 =
      (r.meals.roll_meals_sold e months g).1.getD i 0 *
        ((r.market.roll_market e months
            ((r.labor.roll_cost e months
              ((r.meals.roll_meals_sold e months g).2)).2)).1.getD i 0
          - r.cost_per_meal)
      - r.non_labor_cost_per_month
      - (r.labor.roll_cost e months
          ((r.meals.roll_meals_sold e months g).2)).1.getD i 0 := by
  simp only [Restaurant.simulate]
  rw [getD_map_range _ _ hi]
  rfl

/-- C2 witness: one month with constant draws, evaluated numerically. -/
theorem C2_w :
    (Restaurant.simulate ⟨⟨5040, 6860⟩, ⟨[20], [1]⟩, ⟨3000, 1000⟩, 11, 3995,
        ⟨3500, 9000, 9/10⟩⟩ ⟨fun _ _ _ => 100, fun _ _ _ => 50, fun _ _ _ => 20⟩
      1 false ⟨0, []⟩).1.getD 0 0 = 100 * (20 - 11) - 3995 - 50 := by
  rw [C2_raw_profit_formula ⟨⟨5040, 6860⟩, ⟨[20], [1]⟩, ⟨3000, 1000⟩, 11, 3995,
    ⟨3500, 9000, 9/10⟩⟩ ⟨fun _ _ _ => 100, fun _ _ _ => 50, fun _ _ _ => 20⟩
    1 ⟨0, []⟩ 0 (by norm_num)]
  norm_num [Meals.roll_meals_sold, Labor.roll_cost, Market.roll_market,
    roundHalfEven, List.range_succ, List.range_zero, Int.floor_ofNat]

/-- C3: the Market initializer fails with the length-mismatch message when
the lists differ in length, fails with the out-of-range message when some
probability lies outside `[0,1]`, and succeeds (storing both lists as
given) for every equal-length pair with all probabilities in `[0,1]` —
sum-to-1 is never required. -/
theorem C3_market_init_validation (ps pr : List ℚ) :
    (ps.length ≠ pr.length →
      Market.init ps pr =
        Except.error "meal_prices and market_probability must have the same length.") ∧
    (ps.length = pr.length → (∃ p ∈ pr, p < 0 ∨ p > 1) →
      Market.init ps pr =
        Except.error "market_probability must be between 0 and 1.") ∧
    (ps.length = pr.length → (∀ p ∈ pr, 0 ≤ p ∧ p ≤ 1) →
      Market.init ps pr = Except.ok ⟨ps, pr⟩) := by
  unfold Market.init
  refine ⟨fun h => ?_, fun h hex => ?_, fun h hall => ?_⟩
  · rw [if_pos h]
  · rw [if_neg (fun hne => hne h), if_pos hex]
  · have hmem : ¬ ∃ p ∈ pr, p < 0 ∨ p > 1 := by
      rintro ⟨p, hp, hbad⟩
      rcases hbad with hlt | hgt
      · linarith [(hall p hp).1]
      · linarith [(hall p hp).2]
    rw [if_neg (fun hne => hne h), if_neg hmem]

/-- C3 witness: equal lengths, probabilities in `[0,1]` summing to 1/2, not
to 1 — accepted. -/
theorem C3_w :
    Market.init [20, 37/2] [1/4, 1/4] = Except.ok ⟨[20, 37/2], [1/4, 1/4]⟩ :=
  (C3_market_init_validation [20, 37/2] [1/4, 1/4]).2.2 rfl (by norm_num)

/-- The partnership adjustment never returns less than the floor, provided
the share is at most 1 and the floor is at most the cap threshold. -/
theorem Partnership.min_le_apply (p : Partnership) (x : ℚ)
    (h1 : p.share ≤ 1) (hmt : p.min ≤ p.threshold) : p.min ≤ p.apply x := by
  unfold Partnership.apply
  split_ifs with hf hc
  · exact le_refl _
  · push_neg at hf
    nlinarith [mul_nonneg (sub_nonneg.2 h1) (sub_pos.2 hc).le]
  · push_neg at hf
    exact hf

/-- C4 (amended with share in `[0,1]` and `min ≤ threshold`): every entry of
a partnership-mode simulation is at least the policy's floor. -/
theorem C4_floor_invariant (r : Restaurant) (e : Entropy) (months : ℕ)
    (g : GState) (x : ℚ)
    (_h0 : 0 ≤ r.partnership.share) (h1 : r.partnership.share ≤ 1)
    (hmt : r.partnership.min ≤ r.partnership.threshold)
    (hx : x ∈ (r.simulate e months true g).1) :
    r.partnership.min ≤ x := by
  simp only [Restaurant.simulate, List.mem_map] at hx
  obtain ⟨i, _hi, hxe⟩ := hx
  rw [if_true] at hxe
  rw [← hxe]
  exact Partnership.min_le_apply r.partnership _ h1 hmt

/-- C4 counterexample: a policy with floor 100 above its threshold 5 and
share 1 (inside `[0,1]`) yields a one-month partnership simulation whose
only entry is 5, strictly below the floor. -/
theorem C4_cex :
    (Restaurant.simulate ⟨⟨0, 0⟩, ⟨[12], [1]⟩, ⟨0, 0⟩, 11, 0, ⟨100, 5, 1⟩⟩
        ⟨fun _ _ _ => 200, fun _ _ _ => 0, fun _ _ _ => 12⟩ 1 true ⟨0, []⟩).1
      = [5] ∧ ¬ (100 : ℚ) ≤ 5 ∧ (0 : ℚ) ≤ 1 ∧ (1 : ℚ) ≤ 1 := by
  norm_num [Restaurant.simulate, Meals.roll_meals_sold, Labor.roll_cost,
    Market.roll_market, Partnership.apply, roundHalfEven, List.range_succ,
    List.range_zero, Int.floor_ofNat]

/-- C4 witness: the floored entry of a concrete one-month partnership
simulation is at least the floor. -/
theorem C4_w :
    (3500 : ℚ) ∈ (Restaurant.simulate ⟨⟨0, 0⟩, ⟨[12], [1]⟩, ⟨0, 0⟩, 11, 0,
        ⟨3500, 9000, 9/10⟩⟩ ⟨fun _ _ _ => 200, fun _ _ _ => 0, fun _ _ _ => 12⟩
      1 true ⟨0, []⟩).1 ∧ (3500 : ℚ) ≤ 3500 := by
  have hmem : (3500 : ℚ) ∈ (Restaurant.simulate ⟨⟨0, 0⟩, ⟨[12], [1]⟩, ⟨0, 0⟩,
      11, 0, ⟨3500, 9000, 9/10⟩⟩
      ⟨fun _ _ _ => 200, fun _ _ _ => 0, fun _ _ _ => 12⟩ 1 true ⟨0, []⟩).1 := by
    norm_num [Restaurant.simulate, Meals.roll_meals_sold, Labor.roll_cost,
      Market.roll_market, Partnership.apply, roundHalfEven, List.range_succ,
      List.range_zero, Int.floor_ofNat]
  exact ⟨hmem, C4_floor_invariant _ _ 1 _ 3500 (by norm_num) (by norm_num)
    (by norm_num) hmem⟩

/-- C6: a simulation of `months` months makes exactly `months` normal draws
(meals) at the current stream positions, then `months` uniform draws
(labor), then `months` weighted-choice draws (market) — three contiguous,
non-interleaved batches in that fixed order — and returns exactly `months`
profit entries. -/
theorem C6_draw_order (r : Restaurant) (e : Entropy) (months : ℕ)
    (partnership : Bool) (g : GState) :
    (r.simulate e months partnership g).1.length = months ∧
    (r.simulate e months partnership g).2.pos = g.pos + months + months + months ∧
    (r.simulate e months partnership g).2.log =
      g.log ++ ((List.range months).map fun i =>
          Draw.normal r.meals.mean r.meals.std (g.pos + i))
        ++ ((List.range months).map fun i =>
          Draw.uniform r.labor.min r.labor.max (g.pos + months + i))
        ++ ((List.range months).map fun i =>
          Draw.choice r.market.meal_price r.market.market_probability
            (g.pos + months + months + i)) := by
  refine ⟨?_, rfl, rfl⟩
  simp [Restaurant.simulate]

/-- C9: the profit series is a deterministic function of the configuration,
the month count, the flag, and the RNG stream: two runs whose streams agree
on the `3 * months` consumed positions and start at the same position
produce identical sequences, whatever else (including the logs) differs. -/
theorem C9_deterministic (e1 e2 : Entropy) (r : Restaurant) (months : ℕ)
    (g1 g2 : GState) (hpos : g1.pos = g2.pos)
    (hn : ∀ mean std i, i < 3 * months →
      e1.normalDraw mean std (g1.pos + i) = e2.normalDraw mean std (g2.pos + i))
    (hu : ∀ lo hi i, i < 3 * months →
      e1.uniformDraw lo hi (g1.pos + i) = e2.uniformDraw lo hi (g2.pos + i))
    (hc : ∀ ps pr i, i < 3 * months →
      e1.choiceDraw ps pr (g1.pos + i) = e2.choiceDraw ps pr (g2.pos + i)) :
    (r.simulate e1 months false g1).1 = (r.simulate e2 months false g2).1 := by
  simp only [Restaurant.simulate, Meals.roll_meals_sold, Labor.roll_cost,
    Market.roll_market]
  refine List.map_congr_left fun i hi => ?_
  rw [List.mem_range] at hi
  rw [getD_map_range _ _ hi, getD_map_range _ _ hi, getD_map_range _ _ hi,
    getD_map_range _ _ hi, getD_map_range _ _ hi, getD_map_range _ _ hi]
  have h1 := hn r.meals.mean r.meals.std i (by omega)
  have h2 := hu r.labor.min r.labor.max (months + i) (by omega)
  have h3 := hc r.market.meal_price r.market.market_probability
    (months + months + i) (by omega)
  simp only [← Nat.add_assoc] at h2 h3
  rw [hpos] at h1 h2 h3
  rw [hpos, h1, h2, h3]

/-- C9 witness: two streams that differ only beyond the 36 consumed
positions, and differently logged states at the same position, give the
same 12-month sequence. -/
theorem C9_w :
    (Restaurant.simulate ⟨⟨5040, 6860⟩, ⟨[20], [1]⟩, ⟨3000, 1000⟩, 11, 3995,
        ⟨3500, 9000, 9/10⟩⟩ ⟨fun _ _ _ => 7, fun _ _ _ => 7, fun _ _ _ => 7⟩
      12 false ⟨0, []⟩).1 =
    (Restaurant.simulate ⟨⟨5040, 6860⟩, ⟨[20], [1]⟩, ⟨3000, 1000⟩, 11, 3995,
        ⟨3500, 9000, 9/10⟩⟩
        ⟨fun _ _ i => if i < 36 then 7 else 99,
         fun _ _ i => if i < 36 then 7 else 99,
         fun _ _ i => if i < 36 then 7 else 99⟩
      12 false ⟨0, [Draw.normal 0 1 0]⟩).1 :=
  C9_deterministic _ _ _ 12 _ _ rfl
    (fun _ _ i hi => (if_pos (show 0 + i < 36 by omega)).symm)
    (fun _ _ i hi => (if_pos (show 0 + i < 36 by omega)).symm)
    (fun _ _ i hi => (if_pos (show 0 + i < 36 by omega)).symm)
